import Mathlib

/-!
Verification of the `mo-dump` utility (`src/main.cpp`): a shallow embedding of
the MO-file decoder (`mo_parser::process_mo_contents`), the escaping helper
(`quote_escape_string`) and the CLI glue (`main`), together with theorems
about their behaviour.

Modelling conventions:
* A file buffer (`std::string content`) is a `List Nat` of byte values.
* The `uint32_t` header and table fields are `Nat`s reduced mod `U32 = 2^32`;
  sums and products of `uint32_t` values are likewise reduced mod `U32`,
  exactly where the C++ type rules make the computation wrap.
* `content.c_str()` gives access to bytes `0 .. size` (index `size` is the
  NUL terminator); a read beyond that is undefined behaviour in the C++ and
  is modelled by the explicit outcome `ub`.
* `std::string::substr(pos, count)` throws `std::out_of_range` when
  `pos > size` (modelled as `none`, surfacing as the outcome `crash`, since
  the exception is never caught and terminates the process); otherwise it
  returns the bytes `[pos, pos + min count (size - pos))`.
* `std::unordered_map::emplace` inserts only when the key is absent; the map
  is modelled as an association list in insertion order (iteration order of
  the real container is unspecified, and no theorem below depends on order
  beyond key lookup and key uniqueness).
-/

namespace MoDump

/-- A byte string: the raw bytes of one message. -/
abbrev ByteStr := List Nat

/-- The catalog built by `mo_parser`: modelled as an association list from
original string to translated string, in insertion order. -/
abbrev Catalog := List (ByteStr × ByteStr)

/-- `2^32`, the modulus of `uint32_t` arithmetic. -/
def U32 : Nat := 4294967296

/-- Assemble four bytes, least significant first, into a `uint32_t` value
(the in-memory little-endian field reads done via the `mo_header` /
`mo_entry` struct overlay in the C++). -/
def le32 (b0 b1 b2 b3 : Nat) : Nat :=
  (b0 + 256 * b1 + 65536 * b2 + 16777216 * b3) % U32

/-- The 32-bit little-endian field starting at byte `addr` of the buffer
(used for the five header fields, which are always in bounds once the size
gate has passed). -/
def le32_at (content : List Nat) (addr : Nat) : Nat :=
  le32 (content.getD addr 0) (content.getD (addr + 1) 0)
    (content.getD (addr + 2) 0) (content.getD (addr + 3) 0)

/-- Read one byte of the buffer as exposed through `content.c_str()`:
indices `< size` are the file bytes, index `= size` is the NUL terminator,
and anything beyond is outside the allocation (undefined behaviour), hence
`none`. -/
def byteAt (content : List Nat) (i : Nat) : Option Nat :=
  if h : i < content.length then some (content.get ⟨i, h⟩)
  else if i = content.length then some 0
  else none

/-- Read a `uint32_t` at byte address `addr`, `none` when the read leaves
the allocation. -/
def read_u32 (content : List Nat) (addr : Nat) : Option Nat := do
  let b0 ← byteAt content addr
  let b1 ← byteAt content (addr + 1)
  let b2 ← byteAt content (addr + 2)
  let b3 ← byteAt content (addr + 3)
  pure (le32 b0 b1 b2 b3)

/-- One `(length, offset)` table record (`struct mo_entry`). -/
structure mo_entry where
  length : Nat
  offset : Nat
deriving DecidableEq

/-- Read the `mo_entry` record at byte address `addr` (8 bytes: length then
offset, both little-endian `uint32_t`). -/
def read_entry (content : List Nat) (addr : Nat) : Option mo_entry := do
  let len ← read_u32 content addr
  let off ← read_u32 content (addr + 4)
  pure ⟨len, off⟩

/-- `content.substr(pos, count)`: `none` models the `std::out_of_range`
exception thrown when `pos > size`; otherwise the result is clamped to the
end of the buffer. -/
def substr (content : List Nat) (pos count : Nat) : Option ByteStr :=
  if content.length < pos then none
  else some ((content.drop pos).take count)

/-- Whether the catalog already has an entry for key `k`. -/
def hasKey (m : Catalog) (k : ByteStr) : Bool :=
  m.any (fun p => p.1 = k)

/-- `mo_parser::store_message`: `hashmap_.emplace(msgid, msgstr)` — inserts
only when the key is not already present (first write wins). -/
def store_message (m : Catalog) (msgid msgstr : ByteStr) : Catalog :=
  if hasKey m msgid then m else m ++ [(msgid, msgstr)]

/-- Look a key up in the catalog. -/
def mapLookup (m : Catalog) (k : ByteStr) : Option ByteStr :=
  match m with
  | [] => none
  | p :: rest => if p.1 = k then some p.2 else mapLookup rest k

/-- The distinct failure diagnostics printed by `process_mo_contents`
(spec names in the constructor names; the payloads are exactly the numbers
the C++ diagnostics interpolate — note that the per-entry failure message
" file ended prematurely" carries no data at all, in particular no index). -/
inductive DecodeError where
  /-- "content too small: N bytes found, expected 20 at least" -/
  | tooSmall (found expected : Nat)
  /-- "magic number mismatch" -/
  | badMagic
  /-- " header version is wrong (not 0 or 1): v" -/
  | badVersion (v : Nat)
  /-- " header indicates more messages than file has space for..." -/
  | tableOutOfBounds
  /-- " file ended prematurely" (no payload: the C++ message has none) -/
  | entryOutOfBounds
deriving DecidableEq

/-- How one run of `process_mo_contents` ends. -/
inductive ParseOutcome where
  /-- Normal completion of the loop. -/
  | ok
  /-- A diagnostic was printed to `std::cerr` and the function returned. -/
  | err (e : DecodeError)
  /-- `substr` threw `std::out_of_range`; uncaught, the process terminates. -/
  | crash
  /-- A table-entry read left the buffer allocation: undefined behaviour. -/
  | ub
deriving DecidableEq

/-- What happens at one loop index of `process_mo_contents`: the reads of
`original[i]` and `translated[i]`, the `uint32_t` bounds test
`offset + length > size` (wrapping mod `2^32`, short-circuit `||`), then
the two `substr` calls. -/
inductive EntryResult where
  | ubRead
  | fail
  | crashStep
  | pair (msgid msgstr : ByteStr)
deriving DecidableEq

/-- The body of the extraction loop at index `i`, given the two table
offsets. -/
def entry_step (content : List Nat) (o_off t_off i : Nat) : EntryResult :=
  match read_entry content (o_off + 8 * i) with
  | none => .ubRead
  | some oe =>
    if content.length < (oe.offset + oe.length) % U32 then .fail
    else
      match read_entry content (t_off + 8 * i) with
      | none => .ubRead
      | some te =>
        if content.length < (te.offset + te.length) % U32 then .fail
        else
          match substr content oe.offset oe.length with
          | none => .crashStep
          | some msgid =>
            match substr content te.offset te.length with
            | none => .crashStep
            | some msgstr => .pair msgid msgstr

/-- The extraction loop `for (unsigned i = 0; i < header->number; ++i)`,
carrying the map built so far (the member `hashmap_`, which persists across
an early `return`). -/
def parse_entries (content : List Nat) (o_off t_off : Nat) :
    Nat → Nat → Catalog → ParseOutcome × Catalog
  | _, 0, acc => (.ok, acc)
  | i, r + 1, acc =>
    match entry_step content o_off t_off i with
    | .ubRead => (.ub, acc)
    | .fail => (.err .entryOutOfBounds, acc)
    | .crashStep => (.crash, acc)
    | .pair msgid msgstr =>
      parse_entries content o_off t_off (i + 1) r (store_message acc msgid msgstr)

/-- `mo_parser::process_mo_contents`, returning how the run ended together
with the final contents of `hashmap_`. The two table-bounds comparisons
reproduce the C++ `uint32_t` arithmetic: `8 * number` and the subsequent
addition wrap mod `2^32` before the (64-bit) comparison with `size`. -/
def process_mo_contents (content : List Nat) : ParseOutcome × Catalog :=
  if content.length < 20 then (.err (.tooSmall content.length 20), [])
  else if le32_at content 0 ≠ 0x950412de then (.err .badMagic, [])
  else if le32_at content 4 ≠ 0 ∧ le32_at content 4 ≠ 1 then
    (.err (.badVersion (le32_at content 4)), [])
  else if content.length < (le32_at content 12 + 8 * le32_at content 8 % U32) % U32 ∨
      content.length < (le32_at content 16 + 8 * le32_at content 8 % U32) % U32 then
    (.err .tableOutOfBounds, [])
  else
    parse_entries content (le32_at content 12) (le32_at content 16) 0
      (le32_at content 8) []

/-- One escaped character of `quote_escape_string`: the `switch` over the
five special bytes; every other byte passes through unchanged. -/
def quote_escape_char (c : Nat) : List Nat :=
  if c = 10 then [92, 110]
  else if c = 9 then [92, 116]
  else if c = 0 then [92, 48]
  else if c = 34 then [92, 34]
  else if c = 92 then [92, 92]
  else [c]

/-- `quote_escape_string`: starts from `"\""`, appends the escape of each
byte in order, then appends the closing quote. -/
def quote_escape_string (s : List Nat) : List Nat :=
  (s.foldl (fun acc c => acc ++ quote_escape_char c) [34]) ++ [34]

/-- Modelled from the spec, section 4.2: the per-byte escaping map as the
spec words it — newline to the two characters backslash-n, tab to
backslash-t, NUL to backslash-0, double quote to backslash-quote, backslash
doubled, all other bytes emitted as-is. Used only to compare against the
source-derived `quote_escape_string`. -/
def escape_byte_spec (c : Nat) : List Nat :=
  if c = 10 then [92, 110]
  else if c = 9 then [92, 116]
  else if c = 0 then [92, 48]
  else if c = 34 then [92, 34]
  else if c = 92 then [92, 92]
  else [c]

/-- How an invocation of `main` ends, as far as the claims observe it:
a normal exit with an exit code, whether the usage text was printed to
`std::cerr`, and whether the "Read N entries:" line was printed to
`std::cout`; or an abnormal termination from an uncaught exception; or
undefined behaviour inside the decoder. -/
inductive CliResult where
  | exits (code : Nat) (usage read_line : Bool)
  | aborted
  | undefinedBehaviour
deriving DecidableEq

/-- `main`: `args` are the positional arguments `argv[1], argv[2], ...`
(`argc < 3` is `args.length < 2`), `file_opens` is whether
`std::ifstream(filename)` succeeds, `content` the file bytes. The parser
runs inside the `mo_parser` constructor, before the "Read N entries:" line
is printed; an unknown second argument prints usage but falls through to
the normal `return 0` path. -/
def main_run (args : List String) (file_opens : Bool) (content : List Nat) :
    CliResult :=
  if args.length < 2 then .exits 1 true false
  else if file_opens = false then .exits 1 true false
  else
    match (process_mo_contents content).1 with
    | .crash => .aborted
    | .ub => .undefinedBehaviour
    | _ =>
      if args.getD 1 "" = "keys" then .exits 0 false true
      else if args.getD 1 "" = "pairs" then .exits 0 false true
      else .exits 0 true true


/-! ### Concrete buffers used as witnesses and counterexamples -/

/-- A well-formed buffer except that table entry 1's original string runs
one byte past the end of the file (`offset + length = size + 1`); entry 0
is the valid pair "a" -> "b". -/
def c1buf : List Nat :=
  [222, 18, 4, 149, 0, 0, 0, 0, 2, 0, 0, 0, 20, 0, 0, 0, 36, 0, 0, 0,
   1, 0, 0, 0, 52, 0, 0, 0, 5, 0, 0, 0, 50, 0, 0, 0,
   1, 0, 0, 0, 53, 0, 0, 0, 0, 0, 0, 0, 0, 0, 0, 0,
   97, 98]

/-- A 20-byte buffer (header only) whose count field is `2^29`, so that
`8 * count` is exactly `2^32` and wraps to `0` in `uint32_t` arithmetic;
both table offsets are `0`. -/
def c2buf : List Nat :=
  [222, 18, 4, 149, 0, 0, 0, 0, 0, 0, 0, 32, 0, 0, 0, 0, 0, 0, 0, 0]

/-- Like `c2buf` but with the original-table offset 16, so that after the
wrapped table-bounds gate passes, the first table-entry read runs past the
end of the allocation (undefined behaviour in the C++). -/
def c2buf2 : List Nat :=
  [222, 18, 4, 149, 0, 0, 0, 0, 0, 0, 0, 32, 16, 0, 0, 0, 0, 0, 0, 0]

/-- A 36-byte buffer with one entry whose original descriptor has
`offset = 36` (the buffer length) and `length = 2^32 - 36`, so the
`uint32_t` sum `offset + length` wraps to `0` and the bounds test passes
even though the true sum `2^32` exceeds the buffer length. -/
def c4buf : List Nat :=
  [222, 18, 4, 149, 0, 0, 0, 0, 1, 0, 0, 0, 20, 0, 0, 0, 28, 0, 0, 0,
   220, 255, 255, 255, 36, 0, 0, 0, 0, 0, 0, 0, 0, 0, 0, 0]

/-- A well-formed "dup" buffer: two entries, both with original string
"dup", with translations "first" (entry 0) and "second" (entry 1). -/
def dupbuf : List Nat :=
  [222, 18, 4, 149, 0, 0, 0, 0, 2, 0, 0, 0, 20, 0, 0, 0, 36, 0, 0, 0,
   3, 0, 0, 0, 52, 0, 0, 0, 3, 0, 0, 0, 52, 0, 0, 0,
   5, 0, 0, 0, 55, 0, 0, 0, 6, 0, 0, 0, 60, 0, 0, 0,
   100, 117, 112, 102, 105, 114, 115, 116, 115, 101, 99, 111, 110, 100]

/-- A 20-byte buffer whose count field is `0` (all non-magic fields zero). -/
def zerobuf : List Nat :=
  [222, 18, 4, 149, 0, 0, 0, 0, 0, 0, 0, 0, 0, 0, 0, 0, 0, 0, 0, 0]

/-- A 36-byte buffer with one entry whose original descriptor has
`offset = 2^32 - 1` and `length = 1`: the wrapped sum is `0`, the bounds
test passes, and `substr(offset, length)` throws `std::out_of_range`
(`offset > size`), terminating the process. -/
def c9buf : List Nat :=
  [222, 18, 4, 149, 0, 0, 0, 0, 1, 0, 0, 0, 20, 0, 0, 0, 28, 0, 0, 0,
   1, 0, 0, 0, 255, 255, 255, 255, 0, 0, 0, 0, 0, 0, 0, 0]

/-- Whether a failure diagnostic belongs to one of the four header gates
(size, magic, version, table bounds), as opposed to the per-entry check
inside the extraction loop. -/
def DecodeError.is_header_gate : DecodeError → Bool
  | .entryOutOfBounds => false
  | _ => true

/-! ### Unfolding equations for the extraction loop -/

lemma parse_entries_zero (content : List Nat) (o t i : Nat) (acc : Catalog) :
    parse_entries content o t i 0 acc = (.ok, acc) := rfl

lemma parse_entries_succ_ub (content : List Nat) (o t i r : Nat) (acc : Catalog)
    (he : entry_step content o t i = .ubRead) :
    parse_entries content o t i (r + 1) acc = (.ub, acc) := by
  simp only [parse_entries, he]

lemma parse_entries_succ_fail (content : List Nat) (o t i r : Nat) (acc : Catalog)
    (he : entry_step content o t i = .fail) :
    parse_entries content o t i (r + 1) acc = (.err .entryOutOfBounds, acc) := by
  simp only [parse_entries, he]

lemma parse_entries_succ_crash (content : List Nat) (o t i r : Nat) (acc : Catalog)
    (he : entry_step content o t i = .crashStep) :
    parse_entries content o t i (r + 1) acc = (.crash, acc) := by
  simp only [parse_entries, he]

lemma parse_entries_succ_pair (content : List Nat) (o t i r : Nat) (acc : Catalog)
    (msgid msgstr : ByteStr) (he : entry_step content o t i = .pair msgid msgstr) :
    parse_entries content o t i (r + 1) acc =
      parse_entries content o t (i + 1) r (store_message acc msgid msgstr) := by
  simp only [parse_entries, he]

/-! ### Lookup and key-uniqueness facts about the catalog -/

lemma mapLookup_append (m l : Catalog) (k v : ByteStr)
    (h : mapLookup m k = some v) : mapLookup (m ++ l) k = some v := by
  induction m with
  | nil => simp [mapLookup] at h
  | cons p rest ih =>
    rw [List.cons_append]
    rw [mapLookup] at h ⊢
    by_cases hp : p.1 = k
    · rwa [if_pos hp] at h ⊢
    · rw [if_neg hp] at h ⊢
      exact ih h

lemma mapLookup_store_message (m : Catalog) (a b k v : ByteStr)
    (h : mapLookup m k = some v) :
    mapLookup (store_message m a b) k = some v := by
  unfold store_message
  split
  · exact h
  · exact mapLookup_append m [(a, b)] k v h

lemma parse_entries_lookup_mono (content : List Nat) (o t : Nat) :
    ∀ (r i : Nat) (acc : Catalog) (k v : ByteStr),
      mapLookup acc k = some v →
      mapLookup (parse_entries content o t i r acc).2 k = some v := by
  intro r
  induction r with
  | zero =>
    intro i acc k v h
    rw [parse_entries_zero]
    exact h
  | succ r ih =>
    intro i acc k v h
    cases he : entry_step content o t i with
    | ubRead => rw [parse_entries_succ_ub content o t i r acc he]; exact h
    | fail => rw [parse_entries_succ_fail content o t i r acc he]; exact h
    | crashStep => rw [parse_entries_succ_crash content o t i r acc he]; exact h
    | pair msgid msgstr =>
      rw [parse_entries_succ_pair content o t i r acc msgid msgstr he]
      exact ih _ _ k v (mapLookup_store_message acc msgid msgstr k v h)

lemma hasKey_false_not_mem (m : Catalog) (k : ByteStr)
    (h : hasKey m k = false) : k ∉ m.map Prod.fst := by
  intro hk
  rcases List.mem_map.mp hk with ⟨p, hp, hpk⟩
  have hcontra : hasKey m k = true := by
    unfold hasKey
    rw [List.any_eq_true]
    exact ⟨p, hp, by simp [hpk]⟩
  rw [h] at hcontra
  cases hcontra

lemma keys_nodup_store_message (m : Catalog) (a b : ByteStr)
    (h : (m.map Prod.fst).Nodup) :
    ((store_message m a b).map Prod.fst).Nodup := by
  unfold store_message
  split
  · exact h
  · rename_i hk
    rw [List.map_append]
    refine List.Nodup.append h (List.nodup_singleton a) ?_
    intro x hx hx1
    rcases List.mem_singleton.mp (by simpa using hx1) with rfl
    exact hasKey_false_not_mem m x (Bool.not_eq_true _ ▸ Bool.of_not_eq_true hk) hx

lemma parse_entries_keys_nodup (content : List Nat) (o t : Nat) :
    ∀ (r i : Nat) (acc : Catalog), (acc.map Prod.fst).Nodup →
      ((parse_entries content o t i r acc).2.map Prod.fst).Nodup := by
  intro r
  induction r with
  | zero =>
    intro i acc h
    rw [parse_entries_zero]
    exact h
  | succ r ih =>
    intro i acc h
    cases he : entry_step content o t i with
    | ubRead => rw [parse_entries_succ_ub content o t i r acc he]; exact h
    | fail => rw [parse_entries_succ_fail content o t i r acc he]; exact h
    | crashStep => rw [parse_entries_succ_crash content o t i r acc he]; exact h
    | pair msgid msgstr =>
      rw [parse_entries_succ_pair content o t i r acc msgid msgstr he]
      exact ih _ _ (keys_nodup_store_message acc msgid msgstr h)

lemma process_keys_nodup (content : List Nat) :
    ((process_mo_contents content).2.map Prod.fst).Nodup := by
  unfold process_mo_contents
  split
  · simp
  split
  · simp
  split
  · simp
  split
  · simp
  · exact parse_entries_keys_nodup content _ _ _ 0 [] (by simp)


/-! ### Size and error-shape facts about the extraction loop -/

lemma store_message_length_le (m : Catalog) (a b : ByteStr) :
    (store_message m a b).length ≤ m.length + 1 := by
  unfold store_message
  split
  · omega
  · simp

lemma parse_entries_length_le (content : List Nat) (o t : Nat) :
    ∀ (r i : Nat) (acc : Catalog),
      (parse_entries content o t i r acc).2.length ≤ acc.length + r := by
  intro r
  induction r with
  | zero =>
    intro i acc
    rw [parse_entries_zero]
    show acc.length ≤ acc.length + 0
    omega
  | succ r ih =>
    intro i acc
    cases he : entry_step content o t i with
    | ubRead =>
      rw [parse_entries_succ_ub content o t i r acc he]
      show acc.length ≤ acc.length + (r + 1)
      omega
    | fail =>
      rw [parse_entries_succ_fail content o t i r acc he]
      show acc.length ≤ acc.length + (r + 1)
      omega
    | crashStep =>
      rw [parse_entries_succ_crash content o t i r acc he]
      show acc.length ≤ acc.length + (r + 1)
      omega
    | pair msgid msgstr =>
      rw [parse_entries_succ_pair content o t i r acc msgid msgstr he]
      have h1 := ih (i + 1) (store_message acc msgid msgstr)
      have h2 := store_message_length_le acc msgid msgstr
      omega

lemma parse_entries_err_shape (content : List Nat) (o t : Nat) :
    ∀ (r i : Nat) (acc : Catalog) (e : DecodeError),
      (parse_entries content o t i r acc).1 = .err e → e = .entryOutOfBounds := by
  intro r
  induction r with
  | zero =>
    intro i acc e h
    rw [parse_entries_zero] at h
    cases h
  | succ r ih =>
    intro i acc e h
    cases he : entry_step content o t i with
    | ubRead => rw [parse_entries_succ_ub content o t i r acc he] at h; cases h
    | fail =>
      rw [parse_entries_succ_fail content o t i r acc he] at h
      cases h
      rfl
    | crashStep => rw [parse_entries_succ_crash content o t i r acc he] at h; cases h
    | pair msgid msgstr =>
      rw [parse_entries_succ_pair content o t i r acc msgid msgstr he] at h
      exact ih _ _ e h

/-- If the first `ps.length` loop indices (counting from `i`) extract
exactly the pairs `ps` and the next index fails its bounds test, the loop
stops there with the premature-end diagnostic and the map accumulated so
far: the pairs of `ps` folded (first-wins) onto `acc`. -/
lemma parse_entries_first_fail (content : List Nat) (o t : Nat) :
    ∀ (ps : List (ByteStr × ByteStr)) (i r : Nat) (acc : Catalog),
      ps.length < r →
      (∀ k, k < ps.length →
        entry_step content o t (i + k) =
          .pair (ps.getD k ([], [])).1 (ps.getD k ([], [])).2) →
      entry_step content o t (i + ps.length) = .fail →
      parse_entries content o t i r acc =
        (.err .entryOutOfBounds,
          ps.foldl (fun a p => store_message a p.1 p.2) acc) := by
  intro ps
  induction ps with
  | nil =>
    intro i r acc hr _ hfail
    obtain ⟨r, rfl⟩ : ∃ s, r = s + 1 := ⟨r - 1, by omega⟩
    rw [List.foldl_nil]
    exact parse_entries_succ_fail content o t i r acc (by simpa using hfail)
  | cons p tl ih =>
    intro i r acc hr hsteps hfail
    obtain ⟨r, rfl⟩ : ∃ s, r = s + 1 := ⟨r - 1, by omega⟩
    have hstep0 : entry_step content o t i = .pair p.1 p.2 := by
      simpa using hsteps 0 (by simp)
    rw [parse_entries_succ_pair content o t i r acc p.1 p.2 hstep0]
    rw [List.foldl_cons]
    refine ih (i + 1) r (store_message acc p.1 p.2) (by simpa using hr) ?_ ?_
    · intro k hk
      have := hsteps (k + 1) (by simpa using hk)
      simpa [Nat.add_assoc, Nat.add_comm 1 k] using this
    · have := hfail
      rw [List.length_cons] at this
      simpa [Nat.add_assoc, Nat.add_comm 1 tl.length] using this

/-! ### The escaping helper -/

lemma foldl_escape_eq_flat (s : List Nat) :
    ∀ init : List Nat,
      s.foldl (fun acc c => acc ++ quote_escape_char c) init =
        init ++ s.flatMap escape_byte_spec := by
  induction s with
  | nil => intro init; simp
  | cons c tl ih =>
    intro init
    rw [List.foldl_cons, ih (init ++ quote_escape_char c), List.flatMap_cons]
    rw [List.append_assoc]
    rfl


/-! ### Unfolding the header gates of the decoder -/

lemma process_unfold_gates (content : List Nat)
    (hsize : ¬ content.length < 20)
    (hmagic : le32_at content 0 = 0x950412de)
    (hver : le32_at content 4 = 0 ∨ le32_at content 4 = 1)
    (hgate : ¬ (content.length < (le32_at content 12 + 8 * le32_at content 8 % U32) % U32 ∨
      content.length < (le32_at content 16 + 8 * le32_at content 8 % U32) % U32)) :
    process_mo_contents content =
      parse_entries content (le32_at content 12) (le32_at content 16) 0
        (le32_at content 8) [] := by
  unfold process_mo_contents
  rw [if_neg hsize]
  rw [if_neg (by simp [hmagic])]
  rw [if_neg (by rcases hver with h | h <;> simp [h])]
  rw [if_neg hgate]


/-! ### Claims -/

/-- C1 (amended): when decoding reaches a table entry whose (32-bit,
wrapping) bounds check `offset + length > size` fails first at index
`ps.length`, after the entries before it extracted the pairs `ps`, the
decode stops there with the `EntryOutOfBounds` diagnostic (which carries no
index) and the resulting catalog is the partial catalog of the entries at
the indices before the failing one — it is not empty. -/
theorem C1_entry_failure_partial_catalog (content : List Nat)
    (ps : List (ByteStr × ByteStr))
    (hsize : ¬ content.length < 20)
    (hmagic : le32_at content 0 = 0x950412de)
    (hver : le32_at content 4 = 0 ∨ le32_at content 4 = 1)
    (hgate : ¬ (content.length < (le32_at content 12 + 8 * le32_at content 8 % U32) % U32 ∨
      content.length < (le32_at content 16 + 8 * le32_at content 8 % U32) % U32))
    (hlt : ps.length < le32_at content 8)
    (hsteps : ∀ k, k < ps.length →
      entry_step content (le32_at content 12) (le32_at content 16) k =
        .pair (ps.getD k ([], [])).1 (ps.getD k ([], [])).2)
    (hfail : entry_step content (le32_at content 12) (le32_at content 16)
      ps.length = .fail) :
    process_mo_contents content =
      (.err .entryOutOfBounds,
        ps.foldl (fun a p => store_message a p.1 p.2) []) := by
  rw [process_unfold_gates content hsize hmagic hver hgate]
  refine parse_entries_first_fail content _ _ ps 0 (le32_at content 8) [] hlt ?_ ?_
  · intro k hk
    simpa using hsteps k hk
  · simpa using hfail

/-- Witness for C1: in `c1buf`, entry 0 is the valid pair "a" -> "b" and
entry 1 overruns the buffer by one byte; the decode stops with the
`EntryOutOfBounds` diagnostic and the catalog holds exactly entry 0. -/
theorem C1_witness :
    process_mo_contents c1buf = (.err .entryOutOfBounds, [([97], [98])]) :=
  (C1_entry_failure_partial_catalog c1buf [([97], [98])] (by decide) (by decide)
    (Or.inl (by decide)) (by decide) (by decide) (by decide) (by decide)).trans
    (by decide)

/-- C1 counterexample: for the buffer `c1buf` — whose table entry 1 fails
the bounds check (`offset + length = size + 1`) while entry 0 is valid —
the decode does fail, but the resulting catalog is NOT empty: it still
contains the valid pair "a" -> "b" extracted at index 0, contradicting the
claim that no partial catalog is ever returned. -/
theorem C1_counterexample :
    process_mo_contents c1buf = (.err .entryOutOfBounds, [([97], [98])]) ∧
    (process_mo_contents c1buf).2 ≠ [] := by
  exact ⟨by decide, by decide⟩

/-- C2: code bug — the table-bounds computation is done in `uint32_t`, not
64-bit, arithmetic. For `c2buf` (a 20-byte header-only buffer whose count
field is `2^29`), `8 * count = 2^32` wraps to `0`, the table gate passes
even though the true value `originalTableOffset + 8 * count = 2^32` exceeds
the buffer length, and the decode does not fail with `TableOutOfBounds`
(it runs on into the entry loop); for `c2buf2` (same, with table offset 16)
the wrapped gate also passes and the entry loop then reads past the end of
the allocation — undefined behaviour. -/
theorem C2_table_bounds_wraparound :
    (le32_at c2buf 8 = 536870912 ∧
     c2buf.length < le32_at c2buf 12 + 8 * le32_at c2buf 8 ∧
     U32 ≤ 8 * le32_at c2buf 8 ∧
     process_mo_contents c2buf = (.err .entryOutOfBounds, []) ∧
     (process_mo_contents c2buf).1 ≠ .err .tableOutOfBounds) ∧
    (c2buf2.length < le32_at c2buf2 12 + 8 * le32_at c2buf2 8 ∧
     process_mo_contents c2buf2 = (.ub, [])) := by
  exact ⟨⟨by decide, by decide, by decide, by decide, by decide⟩,
    ⟨by decide, by decide⟩⟩

/-- C3: duplicate original strings are resolved first-wins. The concrete
"dup" buffer (translations "first" then "second" in table order) decodes to
a catalog mapping "dup" to "first"; once a key is mapped during the
extraction loop, later entries never change it; and the catalog never holds
two entries for one key. -/
theorem C3_first_wins :
    process_mo_contents dupbuf =
      (.ok, [([100, 117, 112], [102, 105, 114, 115, 116])]) ∧
    (∀ (content : List Nat) (o t i r : Nat) (acc : Catalog) (k v : ByteStr),
      mapLookup acc k = some v →
      mapLookup (parse_entries content o t i r acc).2 k = some v) ∧
    (∀ content : List Nat, ((process_mo_contents content).2.map Prod.fst).Nodup) := by
  refine ⟨by decide, ?_, process_keys_nodup⟩
  intro content o t i r acc k v h
  exact parse_entries_lookup_mono content o t r i acc k v h

/-- Witness for C3: a key already mapped before the loop runs is still
mapped to the same value afterwards. -/
theorem C3_witness :
    mapLookup (parse_entries [] 0 0 0 3 [([100], [101])]).2 [100] = some [101] :=
  C3_first_wins.2.1 [] 0 0 0 3 [([100], [101])] [100] [101] (by decide)

/-- C4: code bug — the per-entry bounds check is `uint32_t`, not 64-bit,
arithmetic. In `c4buf` the single original descriptor has `offset = 36`
(the buffer length) and `length = 2^32 - 36`: the wrapped sum is `0`, so
the check passes although the true `offset + length = 2^32` exceeds the
buffer length; the decode then succeeds (with a clamped, empty slice)
instead of failing with `EntryOutOfBounds`. -/
theorem C4_entry_bounds_wraparound :
    read_entry c4buf 20 = some ⟨4294967260, 36⟩ ∧
    c4buf.length < 36 + 4294967260 ∧
    process_mo_contents c4buf = (.ok, [([], [])]) := by
  exact ⟨by decide, by decide, by decide⟩

/-- C5: `quote_escape_string` produces a double-quoted representation:
a leading quote, each byte escaped per the spec's per-byte map (newline,
tab, NUL, quote and backslash get two-character escapes, every other byte
passes through unchanged), and a trailing quote. -/
theorem C5_escape_shape (s : List Nat) :
    quote_escape_string s = [34] ++ s.flatMap escape_byte_spec ++ [34] := by
  unfold quote_escape_string
  rw [foldl_escape_eq_flat s [34], List.append_assoc]


/-- C6: a zero-length table entry whose offset satisfies the bounds check
(offset at most the buffer length, end-of-buffer included) passes the
per-entry check used by the extraction loop, and the extracted string is
the empty byte string — no error. -/
theorem C6_zero_length_entry (content : List Nat) (e : mo_entry)
    (hlen : e.length = 0) (hoff : e.offset ≤ content.length)
    (hsm : e.offset < U32) :
    ¬ content.length < (e.offset + e.length) % U32 ∧
    substr content e.offset e.length = some [] := by
  constructor
  · rw [hlen, Nat.add_zero, Nat.mod_eq_of_lt hsm]
    omega
  · rw [hlen]
    unfold substr
    rw [if_neg (by omega)]
    simp

/-- Witness for C6: the entry `(length 0, offset 2)` against a 2-byte
buffer — offset exactly at end-of-buffer. -/
theorem C6_witness :
    ¬ ([0, 0] : List Nat).length < ((2 : Nat) + 0) % U32 ∧
    substr [0, 0] 2 0 = some [] :=
  C6_zero_length_entry [0, 0] ⟨0, 2⟩ rfl (by decide) (by decide)

/-- C7: a buffer passing the size, magic, version and table-bounds gates
whose count field is 0 decodes successfully to the empty catalog. -/
theorem C7_zero_count (content : List Nat)
    (hsize : ¬ content.length < 20)
    (hmagic : le32_at content 0 = 0x950412de)
    (hver : le32_at content 4 = 0 ∨ le32_at content 4 = 1)
    (hgate : ¬ (content.length < (le32_at content 12 + 8 * le32_at content 8 % U32) % U32 ∨
      content.length < (le32_at content 16 + 8 * le32_at content 8 % U32) % U32))
    (hnum : le32_at content 8 = 0) :
    process_mo_contents content = (.ok, []) := by
  rw [process_unfold_gates content hsize hmagic hver hgate, hnum]
  exact parse_entries_zero content _ _ 0 []

/-- Witness for C7: the minimal 20-byte buffer with magic, version 0 and
all remaining fields 0. -/
theorem C7_witness : process_mo_contents zerobuf = (.ok, []) :=
  C7_zero_count zerobuf (by decide) (by decide) (Or.inl (by decide))
    (by decide) (by decide)

/-- C8: every buffer shorter than 20 bytes (the five 32-bit header fields)
fails with `TooSmall`, carrying the actual size and the minimum 20,
regardless of content. -/
theorem C8_too_small (content : List Nat) (h : content.length < 20) :
    process_mo_contents content = (.err (.tooSmall content.length 20), []) := by
  unfold process_mo_contents
  rw [if_pos h]

/-- Witness for C8: the empty buffer. -/
theorem C8_witness : process_mo_contents [] = (.err (.tooSmall 0 20), []) :=
  C8_too_small [] (by decide)

/-- C9 (amended): with fewer than 2 positional arguments, or an unopenable
file, `main` prints usage and exits 1. With an openable file and a second
argument that is neither "keys" nor "pairs", provided the decoder neither
throws (uncaught `std::out_of_range` from `substr`) nor runs into undefined
behaviour, `main` prints usage yet still prints the "Read N entries:" line
and exits 0. -/
theorem C9_cli_dispatch (args : List String) (file_opens : Bool)
    (content : List Nat) :
    (args.length < 2 → main_run args file_opens content = .exits 1 true false) ∧
    (2 ≤ args.length → file_opens = false →
      main_run args file_opens content = .exits 1 true false) ∧
    (2 ≤ args.length → file_opens = true →
      args.getD 1 "" ≠ "keys" → args.getD 1 "" ≠ "pairs" →
      (process_mo_contents content).1 ≠ .crash →
      (process_mo_contents content).1 ≠ .ub →
      main_run args file_opens content = .exits 0 true true) := by
  refine ⟨?_, ?_, ?_⟩
  · intro h
    unfold main_run
    rw [if_pos h]
  · intro h2 hf
    unfold main_run
    rw [if_neg (by omega), hf, if_pos rfl]
  · intro h2 hf hk hp hc hu
    unfold main_run
    rw [if_neg (by omega), hf, if_neg (by simp)]
    cases ho : (process_mo_contents content).1 with
    | ok =>
      show (if args.getD 1 "" = "keys" then CliResult.exits 0 false true
        else if args.getD 1 "" = "pairs" then CliResult.exits 0 false true
        else CliResult.exits 0 true true) = CliResult.exits 0 true true
      rw [if_neg hk, if_neg hp]
    | err e =>
      show (if args.getD 1 "" = "keys" then CliResult.exits 0 false true
        else if args.getD 1 "" = "pairs" then CliResult.exits 0 false true
        else CliResult.exits 0 true true) = CliResult.exits 0 true true
      rw [if_neg hk, if_neg hp]
    | crash => exact absurd ho hc
    | ub => exact absurd ho hu

/-- Witness for C9: two arguments, an openable (empty) file, second
argument "bogus": usage is printed, the Read line is printed, exit 0. -/
theorem C9_witness : main_run ["f", "bogus"] true [] = .exits 0 true true :=
  (C9_cli_dispatch ["f", "bogus"] true []).2.2 (by decide) rfl (by decide)
    (by decide) (by decide) (by decide)

/-- C9 counterexample: `c9buf` is an openable file whose single descriptor
passes the wrapped bounds check with `offset = 2^32 - 1 > size`, so
`substr` throws `std::out_of_range`; the exception is never caught, the
process terminates abnormally inside the `mo_parser` constructor, and the
invocation with second argument "bogus" neither prints the "Read N
entries:" line nor exits 0 — contradicting the claim for this openable
file. -/
theorem C9_counterexample :
    main_run ["f", "bogus"] true c9buf = .aborted ∧
    CliResult.aborted ≠ .exits 0 true true ∧
    "bogus" ≠ "keys" ∧ "bogus" ≠ "pairs" ∧
    (["f", "bogus"] : List String).length = 2 := by
  exact ⟨by decide, by decide, by decide, by decide, by decide⟩

/-- C10: however decoding ends — success, a failed gate, or an abort in
the middle of extraction — the catalog never holds more entries than the
32-bit count field at header offset 8, and it is empty whenever one of the
four header gates (size, magic, version, table bounds) failed. -/
theorem C10_catalog_bounded (content : List Nat) :
    (process_mo_contents content).2.length ≤ le32_at content 8 ∧
    (∀ e : DecodeError, (process_mo_contents content).1 = .err e →
      e.is_header_gate = true → (process_mo_contents content).2 = []) := by
  by_cases h1 : content.length < 20
  · have hp : process_mo_contents content = (.err (.tooSmall content.length 20), []) := by
      unfold process_mo_contents
      rw [if_pos h1]
    rw [hp]
    exact ⟨by simp, fun e he hg => rfl⟩
  by_cases h2 : le32_at content 0 ≠ 0x950412de
  · have hp : process_mo_contents content = (.err .badMagic, []) := by
      unfold process_mo_contents
      rw [if_neg h1, if_pos h2]
    rw [hp]
    exact ⟨by simp, fun e he hg => rfl⟩
  by_cases h3 : le32_at content 4 ≠ 0 ∧ le32_at content 4 ≠ 1
  · have hp : process_mo_contents content =
        (.err (.badVersion (le32_at content 4)), []) := by
      unfold process_mo_contents
      rw [if_neg h1, if_neg h2, if_pos h3]
    rw [hp]
    exact ⟨by simp, fun e he hg => rfl⟩
  by_cases h4 : content.length < (le32_at content 12 + 8 * le32_at content 8 % U32) % U32 ∨
      content.length < (le32_at content 16 + 8 * le32_at content 8 % U32) % U32
  · have hp : process_mo_contents content = (.err .tableOutOfBounds, []) := by
      unfold process_mo_contents
      rw [if_neg h1, if_neg h2, if_neg h3, if_pos h4]
    rw [hp]
    exact ⟨by simp, fun e he hg => rfl⟩
  · have hver : le32_at content 4 = 0 ∨ le32_at content 4 = 1 := by
      rcases not_and_or.mp h3 with h | h
      · exact Or.inl (not_not.mp h)
      · exact Or.inr (not_not.mp h)
    have hp := process_unfold_gates content h1 (not_not.mp h2) hver h4
    constructor
    · rw [hp]
      simpa using parse_entries_length_le content (le32_at content 12)
        (le32_at content 16) (le32_at content 8) 0 []
    · intro e he hg
      rw [hp] at he
      have hsh := parse_entries_err_shape content (le32_at content 12)
        (le32_at content 16) (le32_at content 8) 0 [] e he
      rw [hsh] at hg
      exact absurd hg (by simp [DecodeError.is_header_gate])

/-- Witness for C10: at the empty buffer the catalog is within the count
bound and, since the size gate fails, empty. -/
theorem C10_witness :
    (process_mo_contents []).2.length ≤ le32_at [] 8 ∧
    (process_mo_contents []).2 = [] :=
  ⟨(C10_catalog_bounded []).1,
    (C10_catalog_bounded []).2 (.tooSmall 0 20) (by decide) (by decide)⟩

end MoDump
